import Mathlib

/-!
Shallow embedding of `src/chat_statistics/stats.py` (class `ChatStatistics`).

Messages come from a telegram-style JSON export: each message carries an `id`,
a `text` that is either a plain string or a list of segments (each segment a
plain string or a record that may carry a `text` field), an optional sender
name `from`, and an optional `reply_to_message_id`.

The two external tokenizers (`hazm.sent_tokenize`, `hazm.word_tokenize`) and
the stopword set are parameters of the embedded functions: the code treats
them as black boxes, and every property below is stated for an arbitrary
tokenizer (or a concrete one where a claim fixes concrete text).
-/

/-- One segment of a rich-text message body: either a plain string, or a
record (`dict` in the source) that may or may not carry a string `text`
field; a record without a usable `text` field is `obj none`. -/
inductive Segment where
  | str : String → Segment
  | obj : Option String → Segment
deriving DecidableEq

/-- The `text` field of a message: a plain string or a list of segments. -/
inductive MsgText where
  | str : String → MsgText
  | segs : List Segment → MsgText
deriving DecidableEq

/-- One message record of the export. `id` and `text` are always present
(the code accesses them unconditionally); `from` and `reply_to_message_id`
may be absent. -/
structure Message where
  id : Int
  text : MsgText
  «from» : Option String
  reply_to_message_id : Option Int
deriving DecidableEq

/-- `ChatStatistics.rebuild_msg` (stats.py lines 36-45): concatenate, in
order, each segment that is itself a string, and the `text` field of each
segment that is a record carrying one; other segments contribute nothing. -/
def rebuild_msg (sub_messages : List Segment) : String :=
  sub_messages.foldl
    (fun msg_text sub_msg =>
      match sub_msg with
      | Segment.str s => msg_text ++ s
      | Segment.obj (some t) => msg_text ++ t
      | Segment.obj none => msg_text)
    ""

/-- The in-place rewrite `msg['text'] = self.rebuild_msg(msg['text'])`
performed when `msg['text']` is not a plain string (stats.py lines 70-71). -/
def flattenMsg (m : Message) : Message :=
  match m.text with
  | MsgText.str _ => m
  | MsgText.segs l => { m with text := MsgText.str (rebuild_msg l) }

/-- The string value of a message text; for a flattened message this is the
stored string, and for segment form it is what flattening would store. -/
def Message.textString (m : Message) : String :=
  match m.text with
  | MsgText.str s => s
  | MsgText.segs l => rebuild_msg l

/-- The loop body condition of the question scan (stats.py lines 74-79):
walk the sentences; a sentence without `?` and without `؟` is skipped
(`continue`); the first sentence containing one flags the message and
exits the loop (`break`). -/
def scanSentences : List String → Bool
  | [] => false
  | sentence :: rest =>
    if !sentence.data.contains '?' && !sentence.data.contains '؟' then scanSentences rest
    else true

/-- First pass of `get_top_users` (stats.py lines 68-79): flatten every
message text in place, then record (in `is_question`) the ids of the
messages whose sentence scan found a question mark. Returns the mutated
message list together with the flagged ids. -/
def scanMessages (sent_tokenize : String → List String) :
    List Message → List Message × List Int
  | [] => ([], [])
  | msg :: rest =>
    let msg := flattenMsg msg
    let r := scanMessages sent_tokenize rest
    if scanSentences (sent_tokenize msg.textString)
    then (msg :: r.1, msg.id :: r.2)
    else (msg :: r.1, r.2)

/-- Python truthiness of `msg.get('reply_to_message_id')`: an absent field
yields `None` (falsy) and the integer `0` is falsy as well. -/
def optTruthy : Option Int → Bool
  | none => false
  | some n => n != 0

/-- Second pass of `get_top_users` (stats.py lines 82-89): collect, in
message order, the `from` value of every message whose
`reply_to_message_id` is truthy and flagged in `is_question`. A counted
message lacking a `from` field makes `msg['from']` raise `KeyError`,
modelled as `none`. -/
def collectRepliers (is_question : List Int) : List Message → Option (List String)
  | [] => some []
  | msg :: rest =>
    if !optTruthy msg.reply_to_message_id then collectRepliers is_question rest
    else if !is_question.contains (msg.reply_to_message_id.getD 0) then
      collectRepliers is_question rest
    else
      match msg.«from» with
      | none => none
      | some u => (collectRepliers is_question rest).map (fun users => u :: users)

/-- `collections.Counter(users)`: an association list from each name to its
number of occurrences, keyed in first-occurrence (insertion) order. -/
def addVote (acc : List (String × Nat)) (u : String) : List (String × Nat) :=
  if acc.any (fun p => p.1 == u) then
    acc.map (fun p => if p.1 == u then (p.1, p.2 + 1) else p)
  else acc ++ [(u, 1)]

/-- Build the `Counter` of the collected reply authors. -/
def countVotes (users : List String) : List (String × Nat) :=
  users.foldl addVote []

/-- Stable insertion of an entry into a count-descending list: the new entry
goes after every already-placed entry whose count is at least as large. -/
def insertByCount (x : String × Nat) : List (String × Nat) → List (String × Nat)
  | [] => [x]
  | y :: ys => if x.2 ≤ y.2 then y :: insertByCount x ys else x :: y :: ys

/-- Stable sort by descending count, as performed by
`Counter.most_common` (`heapq.nlargest` decorates with the index, so ties
keep the `Counter` insertion order). -/
def sortByCountDesc (l : List (String × Nat)) : List (String × Nat) :=
  l.foldl (fun acc x => insertByCount x acc) []

/-- `Counter(users).most_common(top_n)` followed by `dict(...)` (stats.py
line 91): the first `top_n` entries of the stable count-descending order;
`dict` preserves that order, so the result is an ordered name-count map. -/
def most_common (top_n : Int) (users : List String) : List (String × Nat) :=
  (sortByCountDesc (countVotes users)).take top_n.toNat

/-- `ChatStatistics.get_top_users` (stats.py lines 61-91), with the
sentence tokenizer as a parameter. Returns the chat data as mutated by the
flattening pass, together with the result: `none` models the `KeyError`
raised when a counted reply lacks a `from` field. -/
def get_top_users (sent_tokenize : String → List String) (messages : List Message)
    (top_n : Int) : List Message × Option (List (String × Nat)) :=
  let scanned := scanMessages sent_tokenize messages
  (scanned.1, (collectRepliers scanned.2 scanned.1).map (most_common top_n))

/-- The text accumulation loop of `ChatStatistics.generate_word_cloud`
(stats.py lines 100-106): messages whose `text` is a plain string are
tokenized, stopword tokens are dropped, and the survivors are space-joined
and appended to the running string; segment-form texts are skipped. -/
def generate_word_cloud_text (word_tokenize : String → List String)
    (stop_words : List String) (messages : List Message) : String :=
  messages.foldl
    (fun text_content msg =>
      match msg.text with
      | MsgText.str s =>
        let tokens := word_tokenize s
        let tokens := tokens.filter (fun item => !stop_words.contains item)
        text_content ++ " ".intercalate tokens
      | MsgText.segs _ => text_content)
    ""

/-- The distinct elements of a list in first-occurrence order (used to state
the key order of `Counter`). -/
def firstOccs (users : List String) : List String :=
  users.foldl (fun acc u => if u ∈ acc then acc else acc ++ [u]) []

/-- The string contributed by one segment under `rebuild_msg`. -/
def segContrib : Segment → String
  | Segment.str s => s
  | Segment.obj (some t) => t
  | Segment.obj none => ""

/-- A sentence/word tokenizer that returns the whole string as one token,
used to instantiate theorems at concrete inputs. -/
def singletonTokenizer : String → List String := fun s => [s]

/-- The two-message export of the end-to-end scenario: message 1 asks
"Why?", message 2 replies "Because." to it. -/
def twoMsgExport : List Message :=
  [ { id := 1, text := MsgText.str "Why?", «from» := some "X",
      reply_to_message_id := none },
    { id := 2, text := MsgText.str "Because.", «from» := some "Y",
      reply_to_message_id := some 1 } ]

/-- A one-message export whose only text is in segment form. -/
def segTextExport : List Message :=
  [ { id := 1, text := MsgText.segs [Segment.str "hi"], «from» := none,
      reply_to_message_id := none } ]

lemma strFoldl_append (l : List String) (a b : String) :
    l.foldl (fun r s => r ++ s) (a ++ b) = a ++ l.foldl (fun r s => r ++ s) b := by
  induction l generalizing b with
  | nil => rfl
  | cons x xs ih => simp only [List.foldl_cons, String.append_assoc, ih]

lemma strFoldl_init (l : List String) (a : String) :
    l.foldl (fun r s => r ++ s) a = a ++ l.foldl (fun r s => r ++ s) "" := by
  have h := strFoldl_append l a ""
  rwa [String.append_empty] at h

lemma rebuild_msg_foldl (l : List Segment) (acc : String) :
    l.foldl
      (fun msg_text sub_msg =>
        match sub_msg with
        | Segment.str s => msg_text ++ s
        | Segment.obj (some t) => msg_text ++ t
        | Segment.obj none => msg_text)
      acc = acc ++ String.join (l.map segContrib) := by
  induction l generalizing acc with
  | nil => simp [String.join]
  | cons s rest ih =>
    cases s with
    | str v =>
      simp only [List.foldl_cons, ih, List.map_cons, String.join, segContrib,
        List.foldl_cons, String.append_assoc]
      rw [String.empty_append, strFoldl_init (List.map segContrib rest) v]
    | obj o =>
      cases o with
      | none =>
        simp only [List.foldl_cons, ih, List.map_cons, String.join, segContrib,
          List.foldl_cons]
        rw [String.append_empty]
      | some t =>
        simp only [List.foldl_cons, ih, List.map_cons, String.join, segContrib,
          List.foldl_cons, String.append_assoc]
        rw [String.empty_append, strFoldl_init (List.map segContrib rest) t]

/-- C4: flattening returns the in-order concatenation of exactly the
string-valued pieces — each string segment contributes itself, each record
segment with a `text` field contributes that field, anything else
contributes nothing; the four-segment example yields "abc" and the empty
segment list yields "". -/
theorem rebuild_msg_concat_spec :
    (∀ l : List Segment, rebuild_msg l = String.join (l.map segContrib))
    ∧ rebuild_msg [Segment.str "a", Segment.obj (some "b"),
        Segment.obj none, Segment.str "c"] = "abc"
    ∧ rebuild_msg [] = "" := by
  refine ⟨fun l => ?_, by decide, rfl⟩
  have h := rebuild_msg_foldl l ""
  simpa [rebuild_msg] using h

/-- C2: on the two-message export where message 1 is "Why?" and message 2
replies "Because." to it, `get_top_users 1` returns exactly the one-entry
mapping Y ↦ 1, for every sentence tokenizer under which the scan of "Why?"
finds a question mark (as hazm's `sent_tokenize` does). -/
theorem get_top_users_two_message_example (sent_tokenize : String → List String)
    (h : scanSentences (sent_tokenize "Why?") = true) :
    (get_top_users sent_tokenize twoMsgExport 1).2 = some [("Y", 1)] := by
  cases hb : scanSentences (sent_tokenize "Because.") <;>
    simp [get_top_users, twoMsgExport, scanMessages, flattenMsg, Message.textString,
      h, hb, collectRepliers, optTruthy, most_common, countVotes, addVote,
      sortByCountDesc, insertByCount]

/-- Witness for C2 at the singleton tokenizer. -/
theorem get_top_users_two_message_example_witness :
    scanSentences (singletonTokenizer "Why?") = true
    ∧ (get_top_users singletonTokenizer twoMsgExport 1).2 = some [("Y", 1)] :=
  ⟨by decide, get_top_users_two_message_example singletonTokenizer (by decide)⟩

lemma flattenMsg_id (m : Message) : (flattenMsg m).id = m.id := by
  cases h : m.text <;> simp [flattenMsg, h]

lemma flattenMsg_from (m : Message) : (flattenMsg m).«from» = m.«from» := by
  cases h : m.text <;> simp [flattenMsg, h]

lemma flattenMsg_reply (m : Message) :
    (flattenMsg m).reply_to_message_id = m.reply_to_message_id := by
  cases h : m.text <;> simp [flattenMsg, h]

lemma scanMessages_fst (sent_tokenize : String → List String) (l : List Message) :
    (scanMessages sent_tokenize l).1 = l.map flattenMsg := by
  induction l with
  | nil => rfl
  | cons m rest ih =>
    simp only [scanMessages, List.map_cons]
    split <;> simp [ih]

lemma scanMessages_snd (sent_tokenize : String → List String) (l : List Message) :
    (scanMessages sent_tokenize l).2 =
      (l.filter
        (fun m => scanSentences (sent_tokenize (flattenMsg m).textString))).map
        (fun m => m.id) := by
  induction l with
  | nil => rfl
  | cons m rest ih =>
    simp only [scanMessages, List.filter_cons]
    split
    next h => simp [h, ih, flattenMsg_id]
    next h => simp [Bool.not_eq_true] at h; simp [h, ih]

lemma scanSentences_eq_any (sentences : List String) :
    scanSentences sentences =
      sentences.any (fun s => s.data.contains '?' || s.data.contains '؟') := by
  induction sentences with
  | nil => rfl
  | cons s rest ih =>
    simp only [scanSentences, List.any_cons]
    cases hq : s.data.contains '?' <;> cases hp : s.data.contains '؟' <;>
      simp [hq, hp, ih]

lemma scanSentences_short_circuit (pre : List String) (s : String)
    (rest : List String) (h : (s.data.contains '?' || s.data.contains '؟') = true) :
    scanSentences (pre ++ s :: rest) = scanSentences (pre ++ [s]) := by
  induction pre with
  | nil =>
    have hc : (!s.data.contains '?' && !s.data.contains '؟') = false := by
      rcases Bool.or_eq_true_iff.mp h with hq | hq
      · rw [hq, Bool.not_true, Bool.false_and]
      · rw [hq, Bool.not_true, Bool.and_false]
    simp only [List.nil_append, scanSentences, hc, Bool.false_eq_true, if_false]
  | cons p ps ih =>
    simp only [List.cons_append, scanSentences]
    split
    · exact ih
    · rfl

/-- C5: the first pass of `get_top_users` flags exactly the ids of the
messages whose (flattened) text has some tokenizer-produced sentence
containing `?` or `؟`; the per-message sentence scan is equivalent to an
existence check and stops at the first qualifying sentence (sentences after
it never affect the outcome). -/
theorem question_scan_spec :
    (∀ (sent_tokenize : String → List String) (messages : List Message),
      (scanMessages sent_tokenize messages).2 =
        (messages.filter
          (fun m => scanSentences (sent_tokenize (flattenMsg m).textString))).map
          (fun m => m.id))
    ∧ (∀ sentences : List String,
        scanSentences sentences =
          sentences.any (fun s => s.data.contains '?' || s.data.contains '؟'))
    ∧ (∀ (pre : List String) (s : String) (rest : List String),
        (s.data.contains '?' || s.data.contains '؟') = true →
        scanSentences (pre ++ s :: rest) = scanSentences (pre ++ [s])) :=
  ⟨scanMessages_snd, scanSentences_eq_any, scanSentences_short_circuit⟩

/-- Witness for C5: the short-circuit clause applied at a concrete sentence
list whose second sentence carries the question mark. -/
theorem question_scan_spec_witness :
    ("b?".data.contains '?' || "b?".data.contains '؟') = true
    ∧ scanSentences (["a"] ++ "b?" :: ["c"]) = scanSentences (["a"] ++ ["b?"]) :=
  ⟨by decide, question_scan_spec.2.2 ["a"] "b?" ["c"] (by decide)⟩

lemma collectRepliers_middle_skip (is_question : List Int) (l₁ l₂ : List Message)
    (m : Message)
    (h : optTruthy m.reply_to_message_id = false
      ∨ is_question.contains (m.reply_to_message_id.getD 0) = false) :
    collectRepliers is_question (l₁ ++ m :: l₂)
      = collectRepliers is_question (l₁ ++ l₂) := by
  induction l₁ with
  | nil =>
    simp only [List.nil_append, collectRepliers]
    rcases h with h | h
    · rw [h]
      exact if_pos rfl
    · cases ht : optTruthy m.reply_to_message_id
      · exact if_pos rfl
      · rw [if_neg (by decide), h]
        exact if_pos rfl
  | cons a rest ih =>
    simp only [List.cons_append, collectRepliers, List.append_eq]
    rw [ih]

/-- C6: a reply whose `reply_to_message_id` names an id that is not flagged
in `is_question` (including ids absent from the export) contributes no vote
and raises no error: removing that message leaves the collected replier
list unchanged. The `defaultdict(bool)` lookup is total in the model: an
id outside the flagged list simply tests false. -/
theorem unflagged_reply_not_counted (is_question : List Int) (l₁ l₂ : List Message)
    (m : Message) (ht : optTruthy m.reply_to_message_id = true)
    (hf : is_question.contains (m.reply_to_message_id.getD 0) = false) :
    collectRepliers is_question (l₁ ++ m :: l₂)
      = collectRepliers is_question (l₁ ++ l₂) :=
  collectRepliers_middle_skip is_question l₁ l₂ m (Or.inr hf)

/-- Witness for C6: a reply to the unflagged id 3 under the flag list [5]. -/
theorem unflagged_reply_not_counted_witness :
    optTruthy (some 3) = true
    ∧ List.contains [(5 : Int)] 3 = false
    ∧ collectRepliers [5]
        ([] ++ { id := 2, text := MsgText.str "x", «from» := some "A",
                 reply_to_message_id := some 3 } :: [])
      = collectRepliers [5] ([] ++ []) :=
  ⟨by decide, by decide,
    unflagged_reply_not_counted [5] [] []
      { id := 2, text := MsgText.str "x", «from» := some "A",
        reply_to_message_id := some 3 }
      (by decide) (by decide)⟩

/-- C8: `get_top_users` rewrites the chat data exactly by flattening each
message in place — the message list keeps its length and order (it is a
`map`), a message whose text is already a plain string is unchanged, and a
message in segment form only has its `text` replaced by the flattened
string; `id`, `from` and `reply_to_message_id` are untouched. -/
theorem get_top_users_frame :
    (∀ (sent_tokenize : String → List String) (messages : List Message)
      (top_n : Int),
      (get_top_users sent_tokenize messages top_n).1 = messages.map flattenMsg)
    ∧ (∀ (i : Int) (s : String) (f : Option String) (r : Option Int),
        flattenMsg
            { id := i, text := MsgText.str s, «from» := f,
              reply_to_message_id := r }
          = { id := i, text := MsgText.str s, «from» := f,
              reply_to_message_id := r })
    ∧ (∀ (i : Int) (l : List Segment) (f : Option String) (r : Option Int),
        flattenMsg
            { id := i, text := MsgText.segs l, «from» := f,
              reply_to_message_id := r }
          = { id := i, text := MsgText.str (rebuild_msg l), «from» := f,
              reply_to_message_id := r }) :=
  ⟨fun sent_tokenize messages top_n => scanMessages_fst sent_tokenize messages,
    fun _ _ _ _ => rfl, fun _ _ _ _ => rfl⟩

lemma scanMessages_append (sent_tokenize : String → List String)
    (l₁ l₂ : List Message) :
    scanMessages sent_tokenize (l₁ ++ l₂)
      = ((scanMessages sent_tokenize l₁).1 ++ (scanMessages sent_tokenize l₂).1,
         (scanMessages sent_tokenize l₁).2 ++ (scanMessages sent_tokenize l₂).2) := by
  induction l₁ with
  | nil => simp [scanMessages]
  | cons m rest ih =>
    simp only [List.cons_append, scanMessages, ih]
    split <;> simp [ih]

lemma scanMessages_cons_eq (sent_tokenize : String → List String) (m : Message)
    (rest : List Message) :
    scanMessages sent_tokenize (m :: rest)
      = (flattenMsg m :: (scanMessages sent_tokenize rest).1,
         if scanSentences (sent_tokenize (flattenMsg m).textString)
         then (flattenMsg m).id :: (scanMessages sent_tokenize rest).2
         else (scanMessages sent_tokenize rest).2) := by
  simp only [scanMessages]
  split <;> rfl

/-- C10: a `reply_to_message_id` equal to 0 is falsy under Python's
`msg.get` truthiness test, so `get_top_users` treats the message exactly as
if the field were absent: the returned mapping is the same, and in the
second pass the message is skipped outright, contributing no vote. -/
theorem reply_zero_treated_as_absent :
    (∀ (sent_tokenize : String → List String) (top_n : Int)
      (l₁ l₂ : List Message) (i : Int) (t : MsgText) (f : Option String),
      (get_top_users sent_tokenize
        (l₁ ++ { id := i, text := t, «from» := f,
                 reply_to_message_id := some 0 } :: l₂) top_n).2
      = (get_top_users sent_tokenize
        (l₁ ++ { id := i, text := t, «from» := f,
                 reply_to_message_id := none } :: l₂) top_n).2)
    ∧ (∀ (is_question : List Int) (l₁ l₂ : List Message) (i : Int) (t : MsgText)
        (f : Option String),
        collectRepliers is_question
          (l₁ ++ { id := i, text := t, «from» := f,
                   reply_to_message_id := some 0 } :: l₂)
        = collectRepliers is_question (l₁ ++ l₂)) := by
  constructor
  · intro sent_tokenize top_n l₁ l₂ i t f
    have hts :
        (flattenMsg
              { id := i, text := t, «from» := f,
                reply_to_message_id := some 0 }).textString
          = (flattenMsg
              { id := i, text := t, «from» := f,
                reply_to_message_id := none }).textString := by
      cases t <;> rfl
    have hid :
        (flattenMsg
              { id := i, text := t, «from» := f,
                reply_to_message_id := some 0 }).id
          = (flattenMsg
              { id := i, text := t, «from» := f,
                reply_to_message_id := none }).id := by
      cases t <;> rfl
    have h0 :
        optTruthy
          (flattenMsg
              { id := i, text := t, «from» := f,
                reply_to_message_id := some 0 }).reply_to_message_id = false := by
      rw [flattenMsg_reply]
      rfl
    have hn :
        optTruthy
          (flattenMsg
              { id := i, text := t, «from» := f,
                reply_to_message_id := none }).reply_to_message_id = false := by
      rw [flattenMsg_reply]
      rfl
    simp only [get_top_users, scanMessages_append, scanMessages_cons_eq, hts, hid]
    rw [collectRepliers_middle_skip _ _ _ _ (Or.inl h0),
      collectRepliers_middle_skip _ _ _ _ (Or.inl hn)]
  · intro is_question l₁ l₂ i t f
    exact collectRepliers_middle_skip _ _ _ _ (Or.inl rfl)

lemma collectRepliers_isSome_iff (is_question : List Int) (l : List Message) :
    (collectRepliers is_question l).isSome = true ↔
      ∀ m ∈ l, optTruthy m.reply_to_message_id = true →
        is_question.contains (m.reply_to_message_id.getD 0) = true →
        m.«from».isSome = true := by
  induction l with
  | nil => simp [collectRepliers]
  | cons m rest ih =>
    simp only [collectRepliers]
    cases ht : optTruthy m.reply_to_message_id
    · simp [ht, ih, List.forall_mem_cons]
    · cases hc : is_question.contains (m.reply_to_message_id.getD 0)
      · have hc' : m.reply_to_message_id.getD 0 ∉ is_question := by simpa using hc
        simp [ht, hc, hc', ih, List.forall_mem_cons]
      · have hc' : m.reply_to_message_id.getD 0 ∈ is_question := by simpa using hc
        cases hf : m.«from» with
        | none => simp [ht, hc, hc', hf, List.forall_mem_cons]
        | some u => simp [ht, hc, hc', hf, ih, List.forall_mem_cons]

/-- C9: `get_top_users` returns a result (rather than failing with the
`KeyError` of `msg['from']`) exactly when every message counted in the
second pass — truthy `reply_to_message_id` whose target id is flagged —
carries a `from` field; one counted reply without `from` makes the whole
call fail. -/
theorem missing_from_fails (sent_tokenize : String → List String)
    (messages : List Message) (top_n : Int) :
    ((get_top_users sent_tokenize messages top_n).2).isSome = true ↔
      ∀ m ∈ messages, optTruthy m.reply_to_message_id = true →
        (scanMessages sent_tokenize messages).2.contains
          (m.reply_to_message_id.getD 0) = true →
        m.«from».isSome = true := by
  have h1 : ((get_top_users sent_tokenize messages top_n).2).isSome
      = (collectRepliers (scanMessages sent_tokenize messages).2
          (scanMessages sent_tokenize messages).1).isSome := by
    simp [get_top_users]
  rw [h1, collectRepliers_isSome_iff, scanMessages_fst]
  constructor
  · intro h m hm ht hc
    have := h (flattenMsg m) (List.mem_map_of_mem flattenMsg hm)
    rw [flattenMsg_reply, flattenMsg_from] at this
    exact this ht hc
  · intro h m' hm' ht hc
    rcases List.mem_map.mp hm' with ⟨m, hm, rfl⟩
    rw [flattenMsg_reply] at ht hc
    rw [flattenMsg_from]
    exact h m hm ht hc

/-- Witness for C9 (the iff applied at a concrete failing export): the
reply to the flagged question lacks `from`, and the call indeed fails. -/
theorem missing_from_fails_witness :
    ¬ ((get_top_users singletonTokenizer
        [ { id := 1, text := MsgText.str "Why?", «from» := some "X",
            reply_to_message_id := none },
          { id := 2, text := MsgText.str "Because.", «from» := none,
            reply_to_message_id := some 1 } ] 10).2).isSome = true :=
  fun h =>
    by simpa using
      ((missing_from_fails singletonTokenizer
        [ { id := 1, text := MsgText.str "Why?", «from» := some "X",
            reply_to_message_id := none },
          { id := 2, text := MsgText.str "Because.", «from» := none,
            reply_to_message_id := some 1 } ] 10).mp h
        { id := 2, text := MsgText.str "Because.", «from» := none,
          reply_to_message_id := some 1 } (by decide) (by decide) (by decide))

/-- C7: the word-cloud text accumulation starts empty, skips (without
flattening) every message whose `text` is in segment form, and for every
message whose `text` is a plain string appends its tokens minus the
stopword set, space-joined, directly onto the running string with no
separator between message groups. -/
theorem word_cloud_text_spec :
    (∀ (word_tokenize : String → List String) (stop_words : List String),
      generate_word_cloud_text word_tokenize stop_words [] = "")
    ∧ (∀ (word_tokenize : String → List String) (stop_words : List String)
        (messages : List Message) (i : Int) (l : List Segment)
        (f : Option String) (r : Option Int),
        generate_word_cloud_text word_tokenize stop_words
            (messages ++ [{ id := i, text := MsgText.segs l, «from» := f,
                            reply_to_message_id := r }])
          = generate_word_cloud_text word_tokenize stop_words messages)
    ∧ (∀ (word_tokenize : String → List String) (stop_words : List String)
        (messages : List Message) (i : Int) (s : String)
        (f : Option String) (r : Option Int),
        generate_word_cloud_text word_tokenize stop_words
            (messages ++ [{ id := i, text := MsgText.str s, «from» := f,
                            reply_to_message_id := r }])
          = generate_word_cloud_text word_tokenize stop_words messages
            ++ " ".intercalate
                ((word_tokenize s).filter
                  (fun item => !stop_words.contains item))) := by
  refine ⟨fun _ _ => rfl, fun wt sw msgs i l f r => ?_, fun wt sw msgs i s f r => ?_⟩
  · simp [generate_word_cloud_text, List.foldl_append]
  · simp [generate_word_cloud_text, List.foldl_append]

lemma flattenMsg_of_text_str {m : Message} {s : String}
    (h : m.text = MsgText.str s) : flattenMsg m = m := by
  unfold flattenMsg
  split
  · rfl
  next l heq => rw [h] at heq; simp at heq

/-- Counterexample to C1: on an export holding one segment-form message,
the text accumulated by the word-cloud builder is empty on a fresh object
but non-empty after a prior `get_top_users`, because `get_top_users`
flattens the segment text in place and the word-cloud pass then sees a
plain string where it previously skipped the message. -/
theorem word_cloud_differs_after_get_top_users :
    generate_word_cloud_text singletonTokenizer []
        (get_top_users singletonTokenizer segTextExport 10).1
      ≠ generate_word_cloud_text singletonTokenizer [] segTextExport := by
  decide

/-- C1 (amended): the word-cloud text is unaffected by a prior
`get_top_users` call provided every message text of the export is already
a plain string, so that the flattening side effect of `get_top_users`
rewrites nothing. -/
theorem word_cloud_unchanged_when_texts_flat
    (sent_tokenize word_tokenize : String → List String)
    (stop_words : List String) (messages : List Message) (top_n : Int)
    (h : ∀ m ∈ messages, ∃ s, m.text = MsgText.str s) :
    generate_word_cloud_text word_tokenize stop_words
        (get_top_users sent_tokenize messages top_n).1
      = generate_word_cloud_text word_tokenize stop_words messages := by
  have h1 : (get_top_users sent_tokenize messages top_n).1
      = messages.map flattenMsg := scanMessages_fst sent_tokenize messages
  have h2 : messages.map flattenMsg = messages := by
    have hc : ∀ m ∈ messages, flattenMsg m = id m := by
      intro m hm
      rcases h m hm with ⟨s, hs⟩
      simpa using flattenMsg_of_text_str hs
    rw [List.map_congr_left hc, List.map_id]
  rw [h1, h2]

/-- Witness for the amended C1 at an export whose texts are all strings. -/
theorem word_cloud_unchanged_when_texts_flat_witness :
    (∀ m ∈ twoMsgExport, ∃ s, m.text = MsgText.str s)
    ∧ generate_word_cloud_text singletonTokenizer []
        (get_top_users singletonTokenizer twoMsgExport 10).1
      = generate_word_cloud_text singletonTokenizer [] twoMsgExport := by
  have hall : ∀ m ∈ twoMsgExport, ∃ s, m.text = MsgText.str s := by
    intro m hm
    simp only [twoMsgExport, List.mem_cons, List.not_mem_nil, or_false] at hm
    rcases hm with rfl | rfl
    · exact ⟨"Why?", rfl⟩
    · exact ⟨"Because.", rfl⟩
  exact ⟨hall,
    word_cloud_unchanged_when_texts_flat singletonTokenizer singletonTokenizer
      [] twoMsgExport 10 hall⟩

lemma insertByCount_perm (x : String × Nat) (l : List (String × Nat)) :
    List.Perm (insertByCount x l) (x :: l) := by
  induction l with
  | nil => exact List.Perm.refl _
  | cons y ys ih =>
    simp only [insertByCount]
    split
    · exact (ih.cons y).trans (List.Perm.swap x y ys)
    · exact List.Perm.refl _

lemma insertByCount_pairwise (x : String × Nat) (l : List (String × Nat))
    (h : l.Pairwise (fun a b => b.2 ≤ a.2)) :
    (insertByCount x l).Pairwise (fun a b => b.2 ≤ a.2) := by
  induction l with
  | nil => simp [insertByCount]
  | cons y ys ih =>
    rcases List.pairwise_cons.mp h with ⟨hy, hys⟩
    simp only [insertByCount]
    split
    next hxy =>
      refine List.pairwise_cons.mpr ⟨?_, ih hys⟩
      intro b hb
      rcases List.mem_cons.mp ((insertByCount_perm x ys).mem_iff.mp hb) with rfl | hby
      · exact hxy
      · exact hy b hby
    next hxy =>
      refine List.pairwise_cons.mpr ⟨?_, h⟩
      intro b hb
      rcases List.mem_cons.mp hb with rfl | hby
      · exact le_of_lt (lt_of_not_le hxy)
      · exact le_trans (hy b hby) (le_of_lt (lt_of_not_le hxy))

lemma insertByCount_filter (x : String × Nat) (l : List (String × Nat))
    (h : l.Pairwise (fun a b => b.2 ≤ a.2)) (c : Nat) :
    (insertByCount x l).filter (fun p => p.2 == c)
      = if x.2 == c
        then l.filter (fun p => p.2 == c) ++ [x]
        else l.filter (fun p => p.2 == c) := by
  induction l with
  | nil => cases hx : (x.2 == c) <;> simp [insertByCount, List.filter, hx]
  | cons y ys ih =>
    rcases List.pairwise_cons.mp h with ⟨hy, hys⟩
    simp only [insertByCount]
    split
    next hxy =>
      cases hyc : (y.2 == c) <;> cases hxc : (x.2 == c) <;>
        simp [List.filter_cons, hyc, hxc, ih hys]
    next hxy =>
      have hlt : y.2 < x.2 := lt_of_not_le hxy
      cases hxc : (x.2 == c)
      · simp [List.filter_cons, hxc]
      · have hcx : x.2 = c := by simpa using hxc
        have hnil : (y :: ys).filter (fun p => p.2 == c) = [] := by
          rw [List.filter_eq_nil_iff]
          intro a ha
          have ha2 : a.2 ≤ y.2 := by
            rcases List.mem_cons.mp ha with rfl | h'
            · exact le_refl _
            · exact hy a h'
          have hac : a.2 < c := lt_of_le_of_lt ha2 (hcx ▸ hlt)
          simp [Nat.ne_of_lt hac]
        simp [List.filter_cons, hxc, hnil]

lemma sortFold_perm (l acc : List (String × Nat)) :
    List.Perm (l.foldl (fun acc x => insertByCount x acc) acc) (acc ++ l) := by
  induction l generalizing acc with
  | nil => simp
  | cons x xs ih =>
    simp only [List.foldl_cons]
    exact ((ih (insertByCount x acc)).trans
      (((insertByCount_perm x acc).append_right xs).trans List.perm_middle.symm))

lemma sortFold_pairwise (l acc : List (String × Nat))
    (h : acc.Pairwise (fun a b => b.2 ≤ a.2)) :
    (l.foldl (fun acc x => insertByCount x acc) acc).Pairwise
      (fun a b => b.2 ≤ a.2) := by
  induction l generalizing acc with
  | nil => exact h
  | cons x xs ih =>
    simp only [List.foldl_cons]
    exact ih (insertByCount x acc) (insertByCount_pairwise x acc h)

lemma sortFold_filter (l acc : List (String × Nat))
    (h : acc.Pairwise (fun a b => b.2 ≤ a.2)) (c : Nat) :
    (l.foldl (fun acc x => insertByCount x acc) acc).filter (fun p => p.2 == c)
      = acc.filter (fun p => p.2 == c) ++ l.filter (fun p => p.2 == c) := by
  induction l generalizing acc with
  | nil => simp
  | cons x xs ih =>
    simp only [List.foldl_cons, List.filter_cons]
    rw [ih (insertByCount x acc) (insertByCount_pairwise x acc h),
      insertByCount_filter x acc h c]
    cases hxc : (x.2 == c) <;> simp [hxc]

lemma sortByCountDesc_perm (l : List (String × Nat)) :
    List.Perm (sortByCountDesc l) l := by
  simpa using sortFold_perm l []

lemma sortByCountDesc_pairwise (l : List (String × Nat)) :
    (sortByCountDesc l).Pairwise (fun a b => b.2 ≤ a.2) :=
  sortFold_pairwise l [] (by simp)

lemma sortByCountDesc_filter (l : List (String × Nat)) (c : Nat) :
    (sortByCountDesc l).filter (fun p => p.2 == c)
      = l.filter (fun p => p.2 == c) := by
  simpa using sortFold_filter l [] (by simp) c

lemma countVotes_concat (users : List String) (u : String) :
    countVotes (users ++ [u]) = addVote (countVotes users) u := by
  simp [countVotes, List.foldl_append]

lemma firstOccs_concat (users : List String) (u : String) :
    firstOccs (users ++ [u])
      = if u ∈ firstOccs users then firstOccs users
        else firstOccs users ++ [u] := by
  simp [firstOccs, List.foldl_append]

lemma any_fst_iff (acc : List (String × Nat)) (u : String) :
    acc.any (fun p => p.1 == u) = true ↔ u ∈ acc.map Prod.fst := by
  constructor
  · intro h
    rcases List.any_eq_true.mp h with ⟨p, hp, he⟩
    exact List.mem_map.mpr ⟨p, hp, by simpa using he⟩
  · intro h
    rcases List.mem_map.mp h with ⟨p, hp, he⟩
    exact List.any_eq_true.mpr ⟨p, hp, by simp [he]⟩

lemma addVote_fst (acc : List (String × Nat)) (u : String) :
    (addVote acc u).map Prod.fst
      = if acc.any (fun p => p.1 == u) then acc.map Prod.fst
        else acc.map Prod.fst ++ [u] := by
  cases hp : acc.any (fun p => p.1 == u)
  · simp [addVote, hp]
  · simp only [addVote, hp, if_true, List.map_map]
    apply List.map_congr_left
    intro p _
    by_cases h : p.1 = u
    · simp [h]
    · simp [h]

lemma countVotes_spec (users : List String) :
    ((countVotes users).map Prod.fst = firstOccs users)
    ∧ ((countVotes users).map Prod.fst).Nodup
    ∧ (∀ p ∈ countVotes users, p.2 = users.count p.1)
    ∧ (∀ u : String, u ∈ (countVotes users).map Prod.fst ↔ u ∈ users) := by
  induction users using List.reverseRecOn with
  | nil => simp [countVotes, firstOccs]
  | append_singleton xs u ih =>
    obtain ⟨hkeys, hnodup, hcount, hmem⟩ := ih
    rw [countVotes_concat, firstOccs_concat]
    cases hp : (countVotes xs).any (fun p => p.1 == u)
    · have hu : u ∉ (countVotes xs).map Prod.fst := by
        rw [← any_fst_iff, hp]; simp
      have humx : u ∉ xs := fun hx => hu ((hmem u).mpr hx)
      have hufo : u ∉ firstOccs xs := hkeys ▸ hu
      have hav : addVote (countVotes xs) u = countVotes xs ++ [(u, 1)] := by
        simp [addVote, hp]
      rw [hav, if_neg hufo]
      refine ⟨by simp [hkeys], ?_, ?_, ?_⟩
      · simp only [List.map_append, List.map_cons, List.map_nil]
        exact List.Nodup.append hnodup (List.nodup_singleton u)
          (by simpa [List.disjoint_singleton] using hu)
      · intro p hp'
        rcases List.mem_append.mp hp' with hpl | hpr
        · have h1 : p.2 = xs.count p.1 := hcount p hpl
          have hpu : p.1 ≠ u := by
            intro he
            exact hu (he ▸ List.mem_map_of_mem Prod.fst hpl)
          rw [List.count_append, List.count_singleton]
          have : (u == p.1) = false := by
            simp [Ne.symm hpu]
          simp [this, h1]
        · have : p = (u, 1) := by simpa using hpr
          subst this
          rw [List.count_append, List.count_singleton]
          simp [List.count_eq_zero.mpr humx]
      · intro v
        simp [hmem v]
    · have hu : u ∈ (countVotes xs).map Prod.fst := (any_fst_iff _ _).mp hp
      have hufo : u ∈ firstOccs xs := hkeys ▸ hu
      have hkeys' : (addVote (countVotes xs) u).map Prod.fst
          = (countVotes xs).map Prod.fst := by
        rw [addVote_fst, hp]; simp
      rw [if_pos hufo]
      refine ⟨by rw [hkeys', hkeys], by rw [hkeys']; exact hnodup, ?_, ?_⟩
      · intro p hp'
        have hav : addVote (countVotes xs) u
            = (countVotes xs).map
                (fun p => if p.1 == u then (p.1, p.2 + 1) else p) := by
          simp [addVote, hp]
        rw [hav] at hp'
        rcases List.mem_map.mp hp' with ⟨q, hq, rfl⟩
        by_cases hqu : q.1 = u
        · have hbq : (q.1 == u) = true := by simp [hqu]
          simp only [hbq, if_true]
          rw [List.count_append, List.count_singleton]
          have : (u == q.1) = true := by simp [hqu]
          simp [this, hcount q hq]
        · have hbq : (q.1 == u) = false := by simp [hqu]
          simp only [hbq, Bool.false_eq_true, if_false]
          rw [List.count_append, List.count_singleton]
          have : (u == q.1) = false := by simp [Ne.symm hqu]
          simp [this, hcount q hq]
      · intro v
        rw [hkeys']
        rw [hmem v]
        constructor
        · intro hv
          exact List.mem_append.mpr (Or.inl hv)
        · intro hv
          rcases List.mem_append.mp hv with hv | hv
          · exact hv
          · have : v = u := List.mem_singleton.mp hv
            subst this
            exact (hmem v).mp hu

/-- C3: whenever the second pass succeeds (collecting `users`, the reply
authors in message order), `get_top_users top_n` returns the first `top_n`
entries of the stable count-descending ordering of the vote counter: at most
`top_n` entries, pairwise-distinct sender names, counts non-increasing, each
name mapped to its exact vote count, keys of the counter in first-counted
order, ties kept in counter order (the filter at each count value is
unchanged by the sort), and when there are at most `top_n` distinct
repliers all of them are returned. -/
theorem get_top_users_ordering (sent_tokenize : String → List String)
    (messages : List Message) (top_n : Int) (users : List String)
    (h : collectRepliers (scanMessages sent_tokenize messages).2
      (scanMessages sent_tokenize messages).1 = some users) :
    (get_top_users sent_tokenize messages top_n).2
        = some ((sortByCountDesc (countVotes users)).take top_n.toNat)
    ∧ ((sortByCountDesc (countVotes users)).take top_n.toNat).length ≤ top_n.toNat
    ∧ (((sortByCountDesc (countVotes users)).take top_n.toNat).map Prod.fst).Nodup
    ∧ ((sortByCountDesc (countVotes users)).take top_n.toNat).Pairwise
        (fun a b => b.2 ≤ a.2)
    ∧ (∀ p ∈ sortByCountDesc (countVotes users), p.2 = users.count p.1)
    ∧ (countVotes users).map Prod.fst = firstOccs users
    ∧ (∀ c : Nat, (sortByCountDesc (countVotes users)).filter (fun p => p.2 == c)
        = (countVotes users).filter (fun p => p.2 == c))
    ∧ ((firstOccs users).length ≤ top_n.toNat →
        (sortByCountDesc (countVotes users)).take top_n.toNat
          = sortByCountDesc (countVotes users)) := by
  obtain ⟨hkeys, hnodup, hcount, hmem⟩ := countVotes_spec users
  have hperm := sortByCountDesc_perm (countVotes users)
  refine ⟨?_, List.length_take_le _ _, ?_, ?_, ?_, hkeys,
    sortByCountDesc_filter _, ?_⟩
  · simp [get_top_users, h, most_common]
  · rw [List.map_take]
    exact List.Nodup.sublist (List.take_sublist _ _)
      ((hperm.map Prod.fst).nodup_iff.mpr hnodup)
  · exact List.Pairwise.sublist (List.take_sublist _ _)
      (sortByCountDesc_pairwise _)
  · intro p hp
    exact hcount p (hperm.mem_iff.mp hp)
  · intro hlen
    apply List.take_of_length_le
    rw [hperm.length_eq]
    have hl2 : (countVotes users).length = (firstOccs users).length := by
      rw [← hkeys, List.length_map]
    rw [hl2]
    exact hlen

/-- Witness for C3 at the two-message export with `top_n = 1`. -/
theorem get_top_users_ordering_witness :
    collectRepliers (scanMessages singletonTokenizer twoMsgExport).2
        (scanMessages singletonTokenizer twoMsgExport).1 = some ["Y"]
    ∧ (get_top_users singletonTokenizer twoMsgExport 1).2
        = some ((sortByCountDesc (countVotes ["Y"])).take (1 : Int).toNat) :=
  ⟨by decide,
    (get_top_users_ordering singletonTokenizer twoMsgExport 1 ["Y"] (by decide)).1⟩
